import Mathlib

/-!
Verification of the troubleshoot node-resources analyzer.

This file gives a shallow embedding of the analyzer core found in the
repository (the `analyzeNodeResources` family of functions in package
`analyzer`, and the `Analyze` helper in package `preflight`), and proves
the specified properties about it.

Modelling conventions:
* Go machine integers are modelled as unbounded `Int` (no claim touches
  integer overflow).
* `resource.Quantity` (an external library type from k8s apimachinery) is
  modelled, from the spec, as `Rat` with three-way comparison; its string
  parser is modelled from the spec's description of `parse`.
* Go's `recover()`-based panic handling is modelled by returning an
  explicit error value (`EvalErr.panicRecovered`) at every operation that
  can panic in the source (failed type assertion, nil-pointer `Cmp`,
  `MustParse` failure).
* Fetching and JSON-decoding collected files is abstracted: the analyzer
  functions receive the already-decoded node list and deployment-name
  list as explicit arguments.
-/

set_option maxRecDepth 10000

namespace Troubleshoot

/-- A resource quantity. Modelled from the spec: the spec's Quantity Model
(section 4.1) describes an opaque measurement with zero, addition, a
three-way comparison and a canonical string parse; the implementation
lives in the external k8s apimachinery library, not in this repository. -/
abbrev Quantity := Rat

/-- Three-way comparison of quantities, as `resource.Quantity.Cmp`:
-1 if `a < b`, 0 if equal, 1 if `a > b`. -/
def qCmp (a b : Quantity) : Int :=
  if a < b then -1 else if a = b then 0 else 1

/-- Value of a digit list read in base 10. -/
def digitsToNat (ds : List Char) : Nat :=
  ds.foldl (fun a c => a * 10 + (c.toNat - 48)) 0

/-- Multiplier for a quantity suffix. Modelled from the spec: the canonical
quantity strings carry SI / binary suffixes (the external library's
`resource.ParseQuantity` recognizes these). -/
def suffixMultiplier (s : String) : Option Quantity :=
  match s with
  | "" => some 1
  | "m" => some (1 / 1000)
  | "k" => some 1000
  | "M" => some 1000000
  | "G" => some 1000000000
  | "T" => some 1000000000000
  | "P" => some 1000000000000000
  | "E" => some 1000000000000000000
  | "Ki" => some 1024
  | "Mi" => some 1048576
  | "Gi" => some 1073741824
  | "Ti" => some 1099511627776
  | "Pi" => some 1125899906842624
  | "Ei" => some 1152921504606846976
  | _ => none

/-- Modelled from the spec: `parse(s) -> Quantity | ParseError` (section 4.1),
the external library's `resource.ParseQuantity`. Accepts an optional sign, a
decimal magnitude with optional fractional part, and an optional
SI / binary suffix; fails on anything else. -/
def parseQuantity (s : String) : Option Quantity :=
  let cs := s.toList
  let signAndRest : Int × List Char :=
    match cs with
    | '-' :: rest => (-1, rest)
    | '+' :: rest => (1, rest)
    | _ => (1, cs)
  let sign := signAndRest.1
  let cs1 := signAndRest.2
  let intDigits := cs1.takeWhile Char.isDigit
  let afterInt := cs1.dropWhile Char.isDigit
  if intDigits.isEmpty then none
  else
    let fracAndRest : List Char × List Char :=
      match afterInt with
      | '.' :: r => (r.takeWhile Char.isDigit, r.dropWhile Char.isDigit)
      | _ => ([], afterInt)
    let fracDigits := fracAndRest.1
    let rest := fracAndRest.2
    let hadDot : Bool := match afterInt with | '.' :: _ => true | _ => false
    if hadDot && fracDigits.isEmpty then none
    else
      match suffixMultiplier (String.mk rest) with
      | none => none
      | some mult =>
        let ip : Quantity := (digitsToNat intDigits : Nat)
        let fp : Quantity := (digitsToNat fracDigits : Nat) / ((10 : Quantity) ^ fracDigits.length)
        some ((sign : Quantity) * (ip + fp) * mult)

/-- Go's `strconv.Atoi`: optional sign followed by at least one decimal
digit and nothing else. -/
def atoi (s : String) : Option Int :=
  let cs := s.toList
  let signAndRest : Int × List Char :=
    match cs with
    | '-' :: rest => (-1, rest)
    | '+' :: rest => (1, rest)
    | _ => (1, cs)
  let digits := signAndRest.2
  if digits.isEmpty then none
  else if digits.all Char.isDigit then some (signAndRest.1 * (digitsToNat digits : Int))
  else none

/-- Whitespace test used by `strings.Fields` / `strings.TrimSpace`
(ASCII subset of `unicode.IsSpace`). -/
def isSpaceChar (c : Char) : Bool :=
  c = ' ' || c = '\t' || c = '\n' || c = '\r'

/-- Worker for `fields`: accumulates the current token (reversed). -/
def fieldsAux : List Char → List Char → List String
  | [], acc => if acc.isEmpty then [] else [String.mk acc.reverse]
  | c :: rest, acc =>
    if isSpaceChar c then
      if acc.isEmpty then fieldsAux rest []
      else String.mk acc.reverse :: fieldsAux rest []
    else fieldsAux rest (c :: acc)

/-- Go's `strings.Fields`: split around runs of whitespace. -/
def fields (s : String) : List String :=
  fieldsAux s.toList []

/-- Go's `strings.TrimSpace`. -/
def trimSpace (s : String) : String :=
  String.mk (((s.toList.dropWhile isSpaceChar).reverse.dropWhile isSpaceChar).reverse)

/-- Index of the last occurrence of `c` in `cs`, if any. -/
def lastIdx (cs : List Char) (c : Char) : Option Nat :=
  match cs with
  | [] => none
  | x :: rest =>
    match lastIdx rest c with
    | some k => some (k + 1)
    | none => if x = c then some 0 else none

/-- The submatch extraction of Go's
`regexp.MustCompile("(?P<function>.*)\\((?P<property>.*)\\)").FindStringSubmatch`:
with both groups greedy and the pattern unanchored, a match exists iff the
string contains a left parenthesis with some right parenthesis after it;
the function group extends to the last such left parenthesis and the
property group to the last right parenthesis. Returns
`(function, property)`. -/
def findParen (s : String) : Option (String × String) :=
  match lastIdx s.toList ')' with
  | none => none
  | some j =>
    match lastIdx (s.toList.take j) '(' with
    | none => none
    | some i =>
      some (String.mk (s.toList.take i), String.mk ((s.toList.drop (i + 1)).take (j - i - 1)))

/-- The four resource kinds a node reports, each `{capacity, allocatable}`.
Models the used part of `corev1.ResourceList`; `none` means the key is
absent from the map. -/
structure ResourceListK where
  cpu : Option Quantity
  memory : Option Quantity
  pods : Option Quantity
  ephemeralStorage : Option Quantity
deriving DecidableEq, Repr

/-- The accessors `ResourceList.Cpu()`, `.Memory()`, `.Pods()`,
`.StorageEphemeral()` of the k8s API return a zero quantity when the key is
absent (they never return nil). -/
def qGet (o : Option Quantity) : Quantity :=
  o.getD 0

/-- The used part of `corev1.Node`. -/
structure Node where
  labels : List (String × String)
  capacity : ResourceListK
  allocatable : ResourceListK
deriving DecidableEq, Repr

/-- `node.Labels[k]` (association-list lookup). -/
def lookupLabel (labels : List (String × String)) (k : String) : Option String :=
  (labels.find? (fun kv => kv.1 = k)).map (fun kv => kv.2)

/-- `getQuantity` from the source: dispatch a property name to the node's
status accessors. Known property names always produce a quantity (the
accessor substitutes zero for an absent map key); unknown names give nil. -/
def getQuantity (node : Node) (property : String) : Option Quantity :=
  match property with
  | "cpuCapacity" => some (qGet node.capacity.cpu)
  | "cpuAllocatable" => some (qGet node.allocatable.cpu)
  | "memoryCapacity" => some (qGet node.capacity.memory)
  | "memoryAllocatable" => some (qGet node.allocatable.memory)
  | "podCapacity" => some (qGet node.capacity.pods)
  | "podAllocatable" => some (qGet node.allocatable.pods)
  | "ephemeralStorageCapacity" => some (qGet node.capacity.ephemeralStorage)
  | "ephemeralStorageAllocatable" => some (qGet node.allocatable.ephemeralStorage)
  | _ => none

/-- One iteration of the `findSum` loop: `sum.Add(*quant)` when the node
reports the property, otherwise leave the accumulator alone. -/
def sumStep (property : String) (sum : Quantity) (node : Node) : Quantity :=
  match getQuantity node property with
  | some quant => sum + quant
  | none => sum

/-- `findSum` from the source: fold `Add` over the nodes, starting from the
zero quantity, skipping nodes for which `getQuantity` is nil. -/
def findSum (nodes : List Node) (property : String) : Quantity :=
  nodes.foldl (sumStep property) 0

/-- One iteration of the `findMin` loop. -/
def minStep (property : String) (mn : Option Quantity) (node : Node) : Option Quantity :=
  match getQuantity node property with
  | some quant =>
    match mn with
    | none => some quant
    | some m => if qCmp quant m = -1 then some quant else some m
  | none => mn

/-- `findMin` from the source: the least quantity among nodes for which
`getQuantity` is non-nil; nil when there is none. -/
def findMin (nodes : List Node) (property : String) : Option Quantity :=
  nodes.foldl (minStep property) none

/-- One iteration of the `findMax` loop. -/
def maxStep (property : String) (mx : Option Quantity) (node : Node) : Option Quantity :=
  match getQuantity node property with
  | some quant =>
    match mx with
    | none => some quant
    | some m => if qCmp quant m = 1 then some quant else some m
  | none => mx

/-- `findMax` from the source: the greatest quantity among nodes for which
`getQuantity` is non-nil; nil when there is none. -/
def findMax (nodes : List Node) (property : String) : Option Quantity :=
  nodes.foldl (maxStep property) none

/-- The dynamically-typed value held in the Go `interface{}` variable
`actualValue`: an `int` (from `count`), a `*resource.Quantity` which may be
a nil pointer (from `min`/`max`/`sum`), or the nil interface (unrecognized
function name, for which no switch case assigns). -/
inductive GoVal where
  | vInt : Int → GoVal
  | vQuantityPtr : Option Quantity → GoVal
  | vNil : GoVal
deriving DecidableEq, Repr

/-- The structured errors `compareNodeResourceConditionalToActual` can
return: the two explicit `errors.New` messages, the (dead) pattern-mismatch
message, and the error produced by the deferred `recover()` for any panic
(failed type assertion, nil-pointer `Cmp`, `MustParse` failure). -/
inductive EvalErr where
  | unableToParse
  | patternMismatch
  | unexpectedConditional
  | panicRecovered
deriving DecidableEq, Repr

/-- Resolution of the literal token: `strconv.Atoi` first; on success the
literal is an integer, otherwise it stays a string. -/
def resolveLiteral (s : String) : Int ⊕ String :=
  match atoi s with
  | some n => Sum.inl n
  | none => Sum.inr s

/-- `resource.MustParse`: panics (here: recovered panic error) on a
malformed quantity string. -/
def mustParseQ (s : String) : Except EvalErr Quantity :=
  match parseQuantity s with
  | some q => Except.ok q
  | none => Except.error EvalErr.panicRecovered

/-- The expression `actualValue.(*resource.Quantity).Cmp(resource.MustParse(d))`:
panics (recovered) if the type assertion fails (`actualValue` is an int or
the nil interface), if `d` does not parse, or if the pointer is nil
(nil dereference inside `Cmp`). -/
def quantityCmp (actualValue : GoVal) (d : String) : Except EvalErr Int :=
  match actualValue with
  | GoVal.vQuantityPtr (some q) =>
    match mustParseQ d with
    | Except.ok dq => Except.ok (qCmp q dq)
    | Except.error e => Except.error e
  | GoVal.vQuantityPtr none => Except.error EvalErr.panicRecovered
  | _ => Except.error EvalErr.panicRecovered

/-- The operator switch of `compareNodeResourceConditionalToActual`: for
each recognized operator, compare as ints when both values are ints,
otherwise coerce via `quantityCmp` (stringifying an integer literal with
`strconv.Itoa`); unrecognized operators fall through to the
"unexpected conditional" error. -/
def evalOp (operator : String) (actualValue : GoVal) (desiredValue : Int ⊕ String) :
    Except EvalErr Bool :=
  match operator with
  | "=" | "==" | "===" =>
    match actualValue, desiredValue with
    | GoVal.vInt a, Sum.inl d => Except.ok (decide (a = d))
    | _, _ =>
      match desiredValue with
      | Sum.inr s =>
        match quantityCmp actualValue s with
        | Except.ok c => Except.ok (decide (c = 0))
        | Except.error e => Except.error e
      | Sum.inl n =>
        match quantityCmp actualValue (toString n) with
        | Except.ok c => Except.ok (decide (c = 0))
        | Except.error e => Except.error e
  | "<" =>
    match actualValue, desiredValue with
    | GoVal.vInt a, Sum.inl d => Except.ok (decide (a < d))
    | _, _ =>
      match desiredValue with
      | Sum.inr s =>
        match quantityCmp actualValue s with
        | Except.ok c => Except.ok (decide (c = -1))
        | Except.error e => Except.error e
      | Sum.inl n =>
        match quantityCmp actualValue (toString n) with
        | Except.ok c => Except.ok (decide (c = -1))
        | Except.error e => Except.error e
  | ">" =>
    match actualValue, desiredValue with
    | GoVal.vInt a, Sum.inl d => Except.ok (decide (d < a))
    | _, _ =>
      match desiredValue with
      | Sum.inr s =>
        match quantityCmp actualValue s with
        | Except.ok c => Except.ok (decide (c = 1))
        | Except.error e => Except.error e
      | Sum.inl n =>
        match quantityCmp actualValue (toString n) with
        | Except.ok c => Except.ok (decide (c = 1))
        | Except.error e => Except.error e
  | "<=" =>
    match actualValue, desiredValue with
    | GoVal.vInt a, Sum.inl d => Except.ok (decide (a ≤ d))
    | _, _ =>
      match desiredValue with
      | Sum.inr s =>
        match quantityCmp actualValue s with
        | Except.ok c => Except.ok (decide (c = 0 ∨ c = -1))
        | Except.error e => Except.error e
      | Sum.inl n =>
        match quantityCmp actualValue (toString n) with
        | Except.ok c => Except.ok (decide (c = 0 ∨ c = -1))
        | Except.error e => Except.error e
  | ">=" =>
    match actualValue, desiredValue with
    | GoVal.vInt a, Sum.inl d => Except.ok (decide (d ≤ a))
    | _, _ =>
      match desiredValue with
      | Sum.inr s =>
        match quantityCmp actualValue s with
        | Except.ok c => Except.ok (decide (c = 0 ∨ c = 1))
        | Except.error e => Except.error e
      | Sum.inl n =>
        match quantityCmp actualValue (toString n) with
        | Except.ok c => Except.ok (decide (c = 0 ∨ c = 1))
        | Except.error e => Except.error e
  | _ => Except.error EvalErr.unexpectedConditional

/-- The aggregate-function dispatch (`switch function`): `count` gives the
number of matching nodes, `min`/`max`/`sum` give quantity pointers, and an
unrecognized function leaves `actualValue` as the nil interface. -/
def evalFunction (function property : String) (matchingNodes : List Node) : GoVal :=
  match function with
  | "count" => GoVal.vInt (matchingNodes.length : Int)
  | "min" => GoVal.vQuantityPtr (findMin matchingNodes property)
  | "max" => GoVal.vQuantityPtr (findMax matchingNodes property)
  | "sum" => GoVal.vQuantityPtr (some (findSum matchingNodes property))
  | _ => GoVal.vNil

/-- Everything `compareNodeResourceConditionalToActual` does after
tokenizing the conditional: prepend `"count"` when there are exactly two
tokens, reject any other token count than three, resolve the literal,
extract `(function, property)` from the first token (falling back to
`"count() == <token>"` when the token does not contain the
function-property pattern), compute the aggregate and apply the
operator. -/
def comparePartsCore (p0 p1 p2 : String) (matchingNodes : List Node) : Except EvalErr Bool :=
  match (match findParen p0 with
         | some fp => some fp
         | none => findParen ("count() == " ++ p0)) with
  | none => Except.error EvalErr.patternMismatch
  | some fp => evalOp p1 (evalFunction fp.1 fp.2 matchingNodes) (resolveLiteral p2)

/-- Everything after tokenizing, continued: reject any token count other
than three (after the two-token prepend) and hand the three tokens to
`comparePartsCore`. -/
def compareParts (parts : List String) (matchingNodes : List Node)
    (totalNodeCount : Nat) : Except EvalErr Bool :=
  let parts := if parts.length = 2 then "count" :: parts else parts
  match parts with
  | [p0, p1, p2] => comparePartsCore p0 p1 p2 matchingNodes
  | _ => Except.error EvalErr.unableToParse

/-- `compareNodeResourceConditionalToActual` from the source: the empty
conditional is true; otherwise trim, split into whitespace-separated
tokens, and continue with `compareParts`. (`totalNodeCount` is accepted but
never read, as in the source.) -/
def compareNodeResourceConditionalToActual (conditional : String)
    (matchingNodes : List Node) (totalNodeCount : Nat) : Except EvalErr Bool :=
  if conditional = "" then Except.ok true
  else compareParts (fields (trimSpace conditional)) matchingNodes totalNodeCount

/-- Errors of `nodeMatchesFilters`: the label-mismatch error
(`errors.Errorf("failed to match label %s", k)`) and the wrapped
`resource.ParseQuantity` failure for a malformed threshold clause. -/
inductive FilterErr where
  | labelMismatch
  | badQuantity
deriving DecidableEq, Repr

/-- `NodeResourceSelectors` from the API types: the `matchLabel` map. -/
structure NodeResourceSelectors where
  matchLabel : List (String × String)
deriving DecidableEq, Repr

/-- `NodeResourceFilters` from the API types: an optional label selector
and eight threshold clauses, each a quantity string with `""` meaning the
clause is absent. -/
structure NodeResourceFilters where
  selector : Option NodeResourceSelectors := none
  cpuCapacity : String := ""
  cpuAllocatable : String := ""
  memoryCapacity : String := ""
  memoryAllocatable : String := ""
  podCapacity : String := ""
  podAllocatable : String := ""
  ephemeralStorageCapacity : String := ""
  ephemeralStorageAllocatable : String := ""
deriving DecidableEq, Repr

/-- The selector loop of `nodeMatchesFilters`: every declared key must be
present in the node's labels with exactly the declared value; the first
mismatch returns an error (not `false`). -/
def checkLabels (labels : List (String × String)) (matchLabel : List (String × String)) :
    Except FilterErr Unit :=
  match matchLabel with
  | [] => Except.ok ()
  | kv :: rest =>
    match lookupLabel labels kv.1 with
    | some l => if l = kv.2 then checkLabels labels rest else Except.error FilterErr.labelMismatch
    | none => Except.error FilterErr.labelMismatch

/-- One threshold clause of `nodeMatchesFilters`: an empty clause imposes
no constraint (fall through to the next clause); otherwise parse the bound
(error on malformed input) and return `false` when the node's quantity
compares below the bound, else fall through. -/
def thresholdStep (clause : String) (actual : Quantity) (next : Except FilterErr Bool) :
    Except FilterErr Bool :=
  if clause = "" then next
  else
    match parseQuantity clause with
    | none => Except.error FilterErr.badQuantity
    | some parsed => if qCmp actual parsed = -1 then Except.ok false else next

/-- `nodeMatchesFilters` from the source: nil filters match everything;
otherwise check the label selector (erroring on any mismatch), then the
eight threshold clauses in declaration order, short-circuiting on the
first clause that excludes the node. -/
def nodeMatchesFilters (node : Node) (filters : Option NodeResourceFilters) :
    Except FilterErr Bool :=
  match filters with
  | none => Except.ok true
  | some f =>
    match (match f.selector with
           | some sel => checkLabels node.labels sel.matchLabel
           | none => Except.ok ()) with
    | Except.error e => Except.error e
    | Except.ok _ =>
      thresholdStep f.cpuCapacity (qGet node.capacity.cpu) <|
      thresholdStep f.cpuAllocatable (qGet node.allocatable.cpu) <|
      thresholdStep f.memoryCapacity (qGet node.capacity.memory) <|
      thresholdStep f.memoryAllocatable (qGet node.allocatable.memory) <|
      thresholdStep f.podCapacity (qGet node.capacity.pods) <|
      thresholdStep f.podAllocatable (qGet node.allocatable.pods) <|
      thresholdStep f.ephemeralStorageCapacity (qGet node.capacity.ephemeralStorage) <|
      thresholdStep f.ephemeralStorageAllocatable (qGet node.allocatable.ephemeralStorage) <|
      Except.ok true

/-- A single outcome entry (`troubleshootv1beta2.SingleOutcome`): the
conditional, the operator-facing message and the reference URI. -/
structure SingleOutcome where
  whenCond : String := ""
  message : String := ""
  uri : String := ""
deriving DecidableEq, Repr

/-- An outcome (`troubleshootv1beta2.Outcome`): at most one of the three
verdict kinds is populated per entry. -/
structure Outcome where
  fail : Option SingleOutcome := none
  warn : Option SingleOutcome := none
  pass : Option SingleOutcome := none
deriving DecidableEq, Repr

/-- `AnalyzeResult` (used fields). -/
structure AnalyzeResult where
  title : String := ""
  iconKey : String := ""
  iconURI : String := ""
  isFail : Bool := false
  isWarn : Bool := false
  isPass : Bool := false
  message : String := ""
  uri : String := ""
deriving DecidableEq, Repr

/-- Errors surfaced by `analyzeNodeResources` (after the fetch/decode
steps, which are abstracted away here): a wrapped filter error
("failed to check if node matches filter") or a wrapped conditional error
("failed to parse when"). -/
inductive AnalyzeErr where
  | filterErr : FilterErr → AnalyzeErr
  | whenErr : EvalErr → AnalyzeErr
deriving DecidableEq, Repr

/-- The node-filtering loop of `analyzeNodeResources`: collect the nodes
that match, aborting on the first filter error. -/
def filterNodes (nodes : List Node) (filters : Option NodeResourceFilters) :
    Except FilterErr (List Node) :=
  match nodes with
  | [] => Except.ok []
  | node :: rest =>
    match nodeMatchesFilters node filters with
    | Except.error e => Except.error e
    | Except.ok isMatch =>
      match filterNodes rest filters with
      | Except.error e => Except.error e
      | Except.ok tail => Except.ok (if isMatch then node :: tail else tail)

/-- The outcome loop of `analyzeNodeResources`: for each entry in order,
evaluate the conditional of whichever verdict field is populated (Fail
checked before Warn before Pass within one entry); the first entry whose
conditional is true sets the corresponding verdict flag, message and URI
and returns; a conditional error aborts; if no entry fires, the result is
returned unchanged. -/
def selectOutcome (outcomes : List Outcome) (matchingNodes : List Node)
    (totalNodeCount : Nat) (result : AnalyzeResult) : Except EvalErr AnalyzeResult :=
  match outcomes with
  | [] => Except.ok result
  | o :: rest =>
    match o.fail with
    | some f =>
      match compareNodeResourceConditionalToActual f.whenCond matchingNodes totalNodeCount with
      | Except.error e => Except.error e
      | Except.ok true => Except.ok { result with isFail := true, message := f.message, uri := f.uri }
      | Except.ok false => selectOutcome rest matchingNodes totalNodeCount result
    | none =>
      match o.warn with
      | some w =>
        match compareNodeResourceConditionalToActual w.whenCond matchingNodes totalNodeCount with
        | Except.error e => Except.error e
        | Except.ok true => Except.ok { result with isWarn := true, message := w.message, uri := w.uri }
        | Except.ok false => selectOutcome rest matchingNodes totalNodeCount result
      | none =>
        match o.pass with
        | some p =>
          match compareNodeResourceConditionalToActual p.whenCond matchingNodes totalNodeCount with
          | Except.error e => Except.error e
          | Except.ok true => Except.ok { result with isPass := true, message := p.message, uri := p.uri }
          | Except.ok false => selectOutcome rest matchingNodes totalNodeCount result
        | none => selectOutcome rest matchingNodes totalNodeCount result

/-- The alternative filter/outcome pair carried by the `onUpdate` /
`onInstall` fields of the analyzer spec. -/
structure NodeResourcesAlt where
  filters : Option NodeResourceFilters := none
  outcomes : List Outcome := []
deriving DecidableEq, Repr

/-- The deployment reference of the analyzer spec (namespace and name). -/
structure DeploymentRef where
  nspace : String := ""
  name : String := ""
deriving DecidableEq, Repr

/-- `troubleshootv1beta2.NodeResources` (used fields). -/
structure NodeResourcesAnalyzer where
  checkName : String := ""
  filters : Option NodeResourceFilters := none
  outcomes : List Outcome := []
  deployment : Option DeploymentRef := none
  onUpdate : Option NodeResourcesAlt := none
  onInstall : Option NodeResourcesAlt := none
deriving DecidableEq, Repr

/-- `checkDeployment` from the source, with the fetch and JSON decode of
the per-namespace deployments file abstracted to the already-decoded list
of deployment names in that namespace: true iff some deployment has the
analyzer's deployment name. -/
def checkDeployment (deploymentNames : List String) (name : String) : Bool :=
  deploymentNames.any (fun n => n = name)

/-- The skip message produced when the deployment exists but no `onUpdate`
alternative is configured. -/
def skipMessage (name : String) : String :=
  "Test skipped: Deployment " ++ name ++
    " found in the cluster, but no specs were found for updates, under \x27onUpdate:\x27 field"

/-- The icon URI constant of the analyzer. -/
def nodeResourcesIconURI : String :=
  "https://troubleshoot.sh/images/analyzer-icons/node-resources.svg?w=16&h=18"

/-- The filter-then-select tail of `analyzeNodeResources`, factored out:
runs the node filter and then the outcome loop, wrapping errors. -/
def analyzeFiltersOutcomes (filters : Option NodeResourceFilters) (outcomes : List Outcome)
    (nodes : List Node) (result : AnalyzeResult) : Except AnalyzeErr AnalyzeResult :=
  match filterNodes nodes filters with
  | Except.error e => Except.error (AnalyzeErr.filterErr e)
  | Except.ok matchingNodes =>
    match selectOutcome outcomes matchingNodes nodes.length result with
    | Except.error e => Except.error (AnalyzeErr.whenErr e)
    | Except.ok r => Except.ok r

/-- `analyzeNodeResources` from the source, with the fetch/decode of
`nodes.json` and of the deployments file abstracted to the already-decoded
`nodes` and `deploymentNames` arguments: resolve the title, apply the
deployment gate (substituting `onUpdate` / `onInstall` specs or producing
the Warn skip result), filter the nodes and select the first matching
outcome. -/
def analyzeNodeResources (analyzer : NodeResourcesAnalyzer) (nodes : List Node)
    (deploymentNames : List String) : Except AnalyzeErr AnalyzeResult :=
  let title := if analyzer.checkName = "" then "Node Resources" else analyzer.checkName
  let result : AnalyzeResult :=
    { title := title, iconKey := "kubernetes_node_resources", iconURI := nodeResourcesIconURI }
  match analyzer.deployment with
  | some d =>
    if checkDeployment deploymentNames d.name then
      match analyzer.onUpdate with
      | some alt => analyzeFiltersOutcomes alt.filters alt.outcomes nodes result
      | none =>
        Except.ok { result with
          title := "Skipped: " ++ title
          isWarn := true
          message := skipMessage d.name }
    else
      match analyzer.onInstall with
      | some alt => analyzeFiltersOutcomes alt.filters alt.outcomes nodes result
      | none => analyzeFiltersOutcomes analyzer.filters analyzer.outcomes nodes result
  | none => analyzeFiltersOutcomes analyzer.filters analyzer.outcomes nodes result

namespace Preflight

/-- Go map insert `m[k] = v` on an association list: overwrite the value
when the key is present, append otherwise. -/
def insertKV {V : Type} (m : List (String × V)) (k : String) (v : V) : List (String × V) :=
  if m.any (fun kv => kv.1 = k) then
    m.map (fun kv => if kv.1 = k then (k, v) else kv)
  else m ++ [(k, v)]

/-- One of the `for k, v := range entries { if pred(k) { matching[k] = v } }`
loops of `getChildCollectedFileContents`. -/
def insertMatching {V : Type} (m : List (String × V)) (entries : List (String × V))
    (pred : String → Bool) : List (String × V) :=
  entries.foldl (fun acc kv => if pred kv.1 then insertKV acc kv.1 kv.2 else acc) m

/-- Go's `strings.HasPrefix k pfx`. -/
def hasPfx (k pfx : String) : Bool :=
  pfx.toList.isPrefixOf k.toList

/-- `getChildCollectedFileContents` from `CollectResult.Analyze` in
`pkg/preflight/analyze.go`. The `protected` Go map may be nil (`none`);
the locally built `matching` map comes from `make` and is never nil, which
is modelled by the literal `matchingIsNil := false` guarding the early
return, exactly as the source's `if matching != nil` guards it. Go's
`filepath.Match` is an external library predicate and is taken as the
parameter `globMatch`. The function never returns an error in the source;
its result type is the map alone. -/
def getChildCollectedFileContents {V : Type} (protectedMap : Option (List (String × V)))
    (allCollectedData : List (String × V)) (globMatch : String → String → Bool)
    (pfx : String) : List (String × V) :=
  let matchingIsNil : Bool := false
  let matching : List (String × V) := []
  let matching :=
    match protectedMap with
    | some prot =>
      insertMatching (insertMatching matching prot (fun k => hasPfx k pfx)) prot
        (fun k => globMatch pfx k)
    | none => matching
  if matchingIsNil then
    insertMatching
      (insertMatching matching allCollectedData (fun k => hasPfx k pfx))
      allCollectedData (fun k => globMatch pfx k)
  else matching

/-- Association-list lookup, the reading of `matching[k]`. -/
def lookupKV {V : Type} (m : List (String × V)) (k : String) : Option V :=
  (m.find? (fun kv => kv.1 = k)).map (fun kv => kv.2)

end Preflight

/-! ### Spec-side helper definitions and concrete fixtures used to state
and witness the claims -/

/-! Concrete fixtures used by the witnesses. -/

/-- A node with a `role=worker` label, cpu capacity 4 and cpu allocatable 2. -/
def nodeA : Node :=
  { labels := [("role", "worker")]
    capacity := { cpu := some 4, memory := none, pods := none, ephemeralStorage := none }
    allocatable := { cpu := some 2, memory := none, pods := none, ephemeralStorage := none } }

/-- A node with no labels and no resource entries at all. -/
def bareNode : Node :=
  { labels := []
    capacity := { cpu := none, memory := none, pods := none, ephemeralStorage := none }
    allocatable := { cpu := none, memory := none, pods := none, ephemeralStorage := none } }

/-- A neutral result record. -/
def baseResult : AnalyzeResult :=
  { title := "Node Resources", iconKey := "kubernetes_node_resources",
    iconURI := nodeResourcesIconURI }

/-- The seven operators the comparator recognizes. -/
def opList : List String := ["=", "==", "===", "<", ">", "<=", ">="]

/-- Modelled from the spec: the operator-to-comparison mapping of section
4.4 — equality operators demand `cmp = 0`, `<` demands `cmp = -1`, `>`
demands `cmp = 1`, `<=` demands `cmp ∈ {0, -1}` and `>=` demands
`cmp ∈ {0, 1}`. Used only to compare against the source's behavior. -/
def cmpTest (operator : String) (c : Int) : Bool :=
  match operator with
  | "=" | "==" | "===" => decide (c = 0)
  | "<" => decide (c = -1)
  | ">" => decide (c = 1)
  | "<=" => decide (c = 0 ∨ c = -1)
  | ">=" => decide (c = 0 ∨ c = 1)
  | _ => false

/-- Three-way comparison of integers, for stating the direct int-int
comparisons through the same mapping. -/
def intCmp3 (a d : Int) : Int :=
  if a < d then -1 else if a = d then 0 else 1

/-- The eight threshold properties a filter can bound. -/
inductive ThresholdProp where
  | cpuCapacity
  | cpuAllocatable
  | memoryCapacity
  | memoryAllocatable
  | podCapacity
  | podAllocatable
  | ephemeralStorageCapacity
  | ephemeralStorageAllocatable
deriving DecidableEq, Repr

/-- A filter declaring exactly one threshold clause and nothing else. -/
def singleClause (p : ThresholdProp) (s : String) : NodeResourceFilters :=
  match p with
  | ThresholdProp.cpuCapacity => { cpuCapacity := s }
  | ThresholdProp.cpuAllocatable => { cpuAllocatable := s }
  | ThresholdProp.memoryCapacity => { memoryCapacity := s }
  | ThresholdProp.memoryAllocatable => { memoryAllocatable := s }
  | ThresholdProp.podCapacity => { podCapacity := s }
  | ThresholdProp.podAllocatable => { podAllocatable := s }
  | ThresholdProp.ephemeralStorageCapacity => { ephemeralStorageCapacity := s }
  | ThresholdProp.ephemeralStorageAllocatable => { ephemeralStorageAllocatable := s }

/-- The node quantity a threshold clause is checked against (the status
accessor, substituting zero for an absent key). -/
def nodePropQ (p : ThresholdProp) (n : Node) : Quantity :=
  match p with
  | ThresholdProp.cpuCapacity => qGet n.capacity.cpu
  | ThresholdProp.cpuAllocatable => qGet n.allocatable.cpu
  | ThresholdProp.memoryCapacity => qGet n.capacity.memory
  | ThresholdProp.memoryAllocatable => qGet n.allocatable.memory
  | ThresholdProp.podCapacity => qGet n.capacity.pods
  | ThresholdProp.podAllocatable => qGet n.allocatable.pods
  | ThresholdProp.ephemeralStorageCapacity => qGet n.capacity.ephemeralStorage
  | ThresholdProp.ephemeralStorageAllocatable => qGet n.allocatable.ephemeralStorage

/-- Whether the node actually reports the property (its resource map has
the key). -/
def nodeHasPropT (p : ThresholdProp) (n : Node) : Bool :=
  match p with
  | ThresholdProp.cpuCapacity => n.capacity.cpu.isSome
  | ThresholdProp.cpuAllocatable => n.allocatable.cpu.isSome
  | ThresholdProp.memoryCapacity => n.capacity.memory.isSome
  | ThresholdProp.memoryAllocatable => n.allocatable.memory.isSome
  | ThresholdProp.podCapacity => n.capacity.pods.isSome
  | ThresholdProp.podAllocatable => n.allocatable.pods.isSome
  | ThresholdProp.ephemeralStorageCapacity => n.capacity.ephemeralStorage.isSome
  | ThresholdProp.ephemeralStorageAllocatable => n.allocatable.ephemeralStorage.isSome

/-- Whether the node actually reports the named property: true only for a
recognized property name whose resource-map key is present. -/
def nodeHasProp (property : String) (n : Node) : Bool :=
  match property with
  | "cpuCapacity" => n.capacity.cpu.isSome
  | "cpuAllocatable" => n.allocatable.cpu.isSome
  | "memoryCapacity" => n.capacity.memory.isSome
  | "memoryAllocatable" => n.allocatable.memory.isSome
  | "podCapacity" => n.capacity.pods.isSome
  | "podAllocatable" => n.allocatable.pods.isSome
  | "ephemeralStorageCapacity" => n.capacity.ephemeralStorage.isSome
  | "ephemeralStorageAllocatable" => n.allocatable.ephemeralStorage.isSome
  | _ => false

/-- Whether the property name is one of the eight the analyzer knows. -/
def isKnownProperty (property : String) : Bool :=
  match property with
  | "cpuCapacity" => true
  | "cpuAllocatable" => true
  | "memoryCapacity" => true
  | "memoryAllocatable" => true
  | "podCapacity" => true
  | "podAllocatable" => true
  | "ephemeralStorageCapacity" => true
  | "ephemeralStorageAllocatable" => true
  | _ => false

/-! ### Helper notions for the outcome-selection claims -/

/-- The three verdict kinds an outcome entry can carry. -/
inductive VerdictKind where
  | fail
  | warn
  | pass
deriving DecidableEq, Repr

/-- The verdict field of an outcome entry that the source's `if/else if`
chain consults: `Fail` when populated, else `Warn`, else `Pass`, else
nothing. -/
def activeEntry (o : Outcome) : Option (VerdictKind × SingleOutcome) :=
  match o.fail with
  | some f => some (VerdictKind.fail, f)
  | none =>
    match o.warn with
    | some w => some (VerdictKind.warn, w)
    | none =>
      match o.pass with
      | some p => some (VerdictKind.pass, p)
      | none => none

/-- Setting the verdict flag, message and URI of a result from a fired
outcome entry. -/
def applyVerdict (k : VerdictKind) (so : SingleOutcome) (r : AnalyzeResult) : AnalyzeResult :=
  match k with
  | VerdictKind.fail => { r with isFail := true, message := so.message, uri := so.uri }
  | VerdictKind.warn => { r with isWarn := true, message := so.message, uri := so.uri }
  | VerdictKind.pass => { r with isPass := true, message := so.message, uri := so.uri }

/-- An outcome entry that does not fire: either it has no populated
verdict field, or its conditional evaluates to `false`. -/
def entryNotTaken (o : Outcome) (mn : List Node) (tc : Nat) : Prop :=
  ∀ k so, activeEntry o = some (k, so) →
    compareNodeResourceConditionalToActual so.whenCond mn tc = Except.ok false

theorem selectOutcome_cons (o : Outcome) (rest : List Outcome) (mn : List Node)
    (tc : Nat) (r : AnalyzeResult) :
    selectOutcome (o :: rest) mn tc r =
      match activeEntry o with
      | none => selectOutcome rest mn tc r
      | some ks =>
        match compareNodeResourceConditionalToActual ks.2.whenCond mn tc with
        | Except.error e => Except.error e
        | Except.ok true => Except.ok (applyVerdict ks.1 ks.2 r)
        | Except.ok false => selectOutcome rest mn tc r := by
  cases hf : o.fail <;> cases hw : o.warn <;> cases hp : o.pass <;>
    simp [selectOutcome, activeEntry, applyVerdict, hf, hw, hp]

theorem selectOutcome_all_false (outs : List Outcome) (mn : List Node) (tc : Nat)
    (r : AnalyzeResult) (h : ∀ e ∈ outs, entryNotTaken e mn tc) :
    selectOutcome outs mn tc r = Except.ok r := by
  induction outs with
  | nil => rfl
  | cons o rest ih =>
    rw [selectOutcome_cons]
    have ho := h o (List.mem_cons_self o rest)
    cases hae : activeEntry o with
    | none => exact ih fun e he => h e (List.mem_cons_of_mem o he)
    | some ks =>
      have hcomp := ho ks.1 ks.2 (by rw [hae])
      simp only [hcomp]
      exact ih fun e he => h e (List.mem_cons_of_mem o he)

/-- C1: evaluation iterates the outcome entries in declared list order; the
first entry whose conditional evaluates to true determines the verdict
flag, message and URI of the result, and entries after it are never
evaluated; if no entry's conditional evaluates to true, the result is
returned unchanged (no verdict flag set) and this is not an error. -/
theorem outcome_order_first_match (pre : List Outcome) (o : Outcome) (post : List Outcome)
    (mn : List Node) (tc : Nat) (r : AnalyzeResult) (k : VerdictKind) (so : SingleOutcome)
    (hpre : ∀ e ∈ pre, entryNotTaken e mn tc)
    (ho : activeEntry o = some (k, so))
    (hw : compareNodeResourceConditionalToActual so.whenCond mn tc = Except.ok true) :
    selectOutcome (pre ++ o :: post) mn tc r = Except.ok (applyVerdict k so r)
    ∧ (∀ outs, (∀ e ∈ outs, entryNotTaken e mn tc) →
        selectOutcome outs mn tc r = Except.ok r) := by
  constructor
  · induction pre with
    | nil =>
      rw [List.nil_append, selectOutcome_cons, ho]
      simp [hw]
    | cons e rest ih =>
      rw [List.cons_append, selectOutcome_cons]
      have he := hpre e (List.mem_cons_self e rest)
      cases hae : activeEntry e with
      | none => exact ih fun x hx => hpre x (List.mem_cons_of_mem e hx)
      | some ks =>
        have hcomp := he ks.1 ks.2 (by rw [hae])
        simp only [hcomp]
        exact ih fun x hx => hpre x (List.mem_cons_of_mem e hx)
  · exact fun outs h => selectOutcome_all_false outs mn tc r h

/-- Witness for C1, the spec's own example: outcomes
`[Fail("count() > 5"), Warn("count() > 0"), Pass("")]` against 3 matching
nodes select the Warn entry (first true entry wins; Pass is never
reached). -/
theorem outcome_order_first_match_witness :
    selectOutcome
      [ { fail := some { whenCond := "count() > 5", message := "f" } }
      , { warn := some { whenCond := "count() > 0", message := "w" } }
      , { pass := some { whenCond := "", message := "p" } } ]
      [nodeA, nodeA, nodeA] 3 baseResult =
      Except.ok { baseResult with isWarn := true, message := "w", uri := "" } := by
  have h := outcome_order_first_match
    [ { fail := some { whenCond := "count() > 5", message := "f" } } ]
    { warn := some { whenCond := "count() > 0", message := "w" } }
    [ { pass := some { whenCond := "", message := "p" } } ]
    [nodeA, nodeA, nodeA] 3 baseResult VerdictKind.warn { whenCond := "count() > 0", message := "w" }
    (by
      intro e he k so hk
      simp only [List.mem_singleton] at he
      subst he
      simp only [activeEntry] at hk
      cases hk
      rfl)
    rfl
    rfl
  exact h.1

/-! ### C2: literal resolution and comparison semantics -/

theorem intCmp3_eq_zero_iff (a d : Int) : intCmp3 a d = 0 ↔ a = d := by
  unfold intCmp3
  split_ifs <;> simp [*] <;> omega

theorem intCmp3_eq_negone_iff (a d : Int) : intCmp3 a d = -1 ↔ a < d := by
  unfold intCmp3
  split_ifs <;> simp [*] <;> omega

theorem intCmp3_eq_one_iff (a d : Int) : intCmp3 a d = 1 ↔ d < a := by
  unfold intCmp3
  split_ifs <;> simp [*] <;> omega

theorem intCmp3_le_iff (a d : Int) : (intCmp3 a d = 0 ∨ intCmp3 a d = -1) ↔ a ≤ d := by
  unfold intCmp3
  split_ifs <;> simp [*] <;> omega

theorem intCmp3_ge_iff (a d : Int) : (intCmp3 a d = 0 ∨ intCmp3 a d = 1) ↔ d ≤ a := by
  unfold intCmp3
  split_ifs <;> simp [*] <;> omega

/-- C2: the literal is resolved by integer parse first (integer on
success, raw string otherwise); two integers are compared directly; a
quantity against a string literal parses the string as a quantity and
compares; a quantity against an integer literal stringifies the integer
and parses it as a quantity; and every recognized operator follows the
cmp-based mapping `=`/`==`/`===` ↦ cmp=0, `<` ↦ cmp=-1, `>` ↦ cmp=1,
`<=` ↦ cmp∈{0,-1}, `>=` ↦ cmp∈{0,1}. -/
theorem comparator_type_and_operator_semantics (op : String) (hop : op ∈ opList) :
    (∀ s, resolveLiteral s =
      match atoi s with
      | some n => Sum.inl n
      | none => Sum.inr s)
    ∧ (∀ a d : Int, evalOp op (GoVal.vInt a) (Sum.inl d) =
        Except.ok (cmpTest op (intCmp3 a d)))
    ∧ (∀ (q dq : Quantity) (s : String), parseQuantity s = some dq →
        evalOp op (GoVal.vQuantityPtr (some q)) (Sum.inr s) =
          Except.ok (cmpTest op (qCmp q dq)))
    ∧ (∀ (q dq : Quantity) (n : Int), parseQuantity (toString n) = some dq →
        evalOp op (GoVal.vQuantityPtr (some q)) (Sum.inl n) =
          Except.ok (cmpTest op (qCmp q dq))) := by
  refine ⟨fun s => rfl, ?_, ?_, ?_⟩
  · intro a d
    fin_cases hop <;>
      simp only [evalOp, cmpTest] <;>
      congr 1 <;>
      rw [decide_eq_decide] <;>
      first
        | exact (intCmp3_eq_zero_iff a d).symm
        | exact (intCmp3_eq_negone_iff a d).symm
        | exact (intCmp3_eq_one_iff a d).symm
        | exact (intCmp3_le_iff a d).symm
        | exact (intCmp3_ge_iff a d).symm
  · intro q dq s h
    fin_cases hop <;> simp [evalOp, quantityCmp, mustParseQ, h, cmpTest]
  · intro q dq n h
    fin_cases hop <;> simp [evalOp, quantityCmp, mustParseQ, h, cmpTest]

/-- Witness for C2: `min = 4 cores` compared with the integer literal `4`
under `>=` — the literal is stringified, parsed as a quantity, and the
comparison yields true. -/
theorem comparator_semantics_witness :
    ">=" ∈ opList ∧
      evalOp ">=" (GoVal.vQuantityPtr (some 4)) (Sum.inl 4) = Except.ok true := by
  have h := comparator_type_and_operator_semantics ">=" (by decide)
  refine ⟨by decide, ?_⟩
  have h4 : parseQuantity (toString (4 : Int)) = some 4 := by with_unfolding_all rfl
  rw [h.2.2.2 4 4 4 h4]
  with_unfolding_all rfl

/-! ### Validation of the string-processing models on concrete inputs -/

/-- `findParen` agrees with Go's greedy unanchored
`(?P<function>.*)\((?P<property>.*)\)` submatch extraction on
representative inputs. -/
theorem findParen_examples :
    findParen "min(cpuCapacity)" = some ("min", "cpuCapacity")
    ∧ findParen "count()" = some ("count", "")
    ∧ findParen "count" = none
    ∧ findParen "a(b)c(d)" = some ("a(b)c", "d")
    ∧ findParen ")(x)" = some (")", "x") :=
  ⟨rfl, rfl, rfl, rfl, rfl⟩

/-- `fields` splits around whitespace runs like `strings.Fields`. -/
theorem fields_examples :
    fields "  count()  > 5 " = ["count()", ">", "5"]
    ∧ fields "" = []
    ∧ fields "min(cpuCapacity) >= 4" = ["min(cpuCapacity)", ">=", "4"] :=
  ⟨rfl, rfl, rfl⟩

/-- The quantity parser model on representative canonical strings. -/
theorem parseQuantity_examples :
    parseQuantity "4" = some 4
    ∧ parseQuantity "100Gi" = some 107374182400
    ∧ parseQuantity "250m" = some (1 / 4)
    ∧ parseQuantity "1.5" = some (3 / 2)
    ∧ parseQuantity "banana" = none := by
  refine ⟨?_, ?_, ?_, ?_, rfl⟩ <;> with_unfolding_all rfl

/-- The integer parser model. -/
theorem atoi_examples :
    atoi "42" = some 42 ∧ atoi "-12" = some (-12) ∧ atoi "banana" = none
    ∧ atoi "4Gi" = none ∧ atoi "" = none := by
  refine ⟨?_, ?_, rfl, rfl, rfl⟩ <;> with_unfolding_all rfl

/-! ### C3: conditional grammar -/

theorem lastIdx_append (xs ys : List Char) (c : Char) :
    lastIdx (xs ++ ys) c =
      match lastIdx ys c with
      | some k => some (xs.length + k)
      | none => lastIdx xs c := by
  induction xs with
  | nil => cases h : lastIdx ys c <;> simp [lastIdx, h]
  | cons x xs ih =>
    show (match lastIdx (xs ++ ys) c with
          | some k => some (k + 1)
          | none => if x = c then some 0 else none) = _
    rw [ih]
    cases h : lastIdx ys c with
    | none => rfl
    | some k =>
      show some (xs.length + k + 1) = some ((x :: xs).length + k)
      congr 1
      simp [List.length_cons]
      omega

theorem findParen_eq_of (s : String) {j i : Nat} (hj : lastIdx s.toList ')' = some j)
    (hi : lastIdx (s.toList.take j) '(' = some i) :
    findParen s =
      some (String.mk (s.toList.take i), String.mk ((s.toList.drop (i + 1)).take (j - i - 1))) := by
  simp only [findParen, hj, hi]

theorem findParen_none_inv (s : String) (h : findParen s = none) :
    lastIdx s.toList ')' = none ∨
      ∃ r, lastIdx s.toList ')' = some r ∧ lastIdx (s.toList.take r) '(' = none := by
  cases hj : lastIdx s.toList ')' with
  | none => exact Or.inl rfl
  | some r =>
    refine Or.inr ⟨r, rfl, ?_⟩
    cases hi : lastIdx (s.toList.take r) '(' with
    | none => rfl
    | some i =>
      rw [findParen_eq_of s hj hi] at h
      cases h

/-- The regex fallback `count() == <token>` always produces a submatch with
function group `"count"` when the token itself has no
function-property pattern. -/
theorem findParen_fallback (f : String) (h : findParen f = none) :
    ∃ prop, findParen ("count() == " ++ f) = some ("count", prop) := by
  have hl : ("count() == " ++ f).toList = "count() == ".toList ++ f.toList := rfl
  rcases findParen_none_inv f h with hj | ⟨r, hj, hi⟩
  · have h1 : lastIdx (("count() == " ++ f).toList) ')' = some 6 := by
      rw [hl, lastIdx_append, hj]
      rfl
    have h2 : lastIdx ((("count() == " ++ f).toList).take 6) '(' = some 5 := by
      rw [hl, List.take_append_of_le_length (by decide)]
      rfl
    rw [findParen_eq_of _ h1 h2]
    exact ⟨_, rfl⟩
  · have h1 : lastIdx (("count() == " ++ f).toList) ')' =
        some (("count() == ".toList).length + r) := by
      rw [hl, lastIdx_append, hj]
    have h2 : lastIdx ((("count() == " ++ f).toList).take (("count() == ".toList).length + r))
        '(' = some 5 := by
      rw [hl, List.take_append, lastIdx_append, hi]
      rfl
    rw [findParen_eq_of _ h1 h2]
    exact ⟨_, rfl⟩

/-- An operator outside the recognized seven falls through every case of
the operator switch to the "unexpected conditional" error, whatever the
operand values are. -/
theorem evalOp_unknown (op : String) (hop : op ∉ opList) (a : GoVal) (d : Int ⊕ String) :
    evalOp op a d = Except.error EvalErr.unexpectedConditional := by
  simp only [opList, List.mem_cons, List.not_mem_nil, or_false, not_or] at hop
  obtain ⟨h1, h2, h3, h4, h5, h6, h7⟩ := hop
  unfold evalOp
  split <;> simp_all

/-- C3 counterexample: the three-token conditional `"foo == 3"` matches
neither grammar form (its first token is not `function(property)` and it
is not the two-token shorthand), yet evaluation against three matching
nodes returns the verdict `true` instead of a parse error. -/
theorem conditional_grammar_counterexample :
    compareNodeResourceConditionalToActual "foo == 3" [bareNode, bareNode, bareNode] 3 =
      Except.ok true := rfl

/-- C3 (amended): the empty conditional is true; a two-token conditional
`<operator> <literal>` is evaluated as `count() <operator> <literal>`; a
conditional with any other token count than two or three yields a
structured parse error; a recognized-form conditional with an
unrecognized operator yields a structured error; but a three-token
conditional whose first token does not contain the `function(property)`
pattern is evaluated as `count()` (its first token is effectively
ignored) rather than producing a parse error. -/
theorem conditional_grammar_amended (f op lit : String) (parts : List String)
    (mn : List Node) (tc : Nat) :
    (compareNodeResourceConditionalToActual "" mn tc = Except.ok true)
    ∧ (compareParts [op, lit] mn tc = compareParts ["count()", op, lit] mn tc)
    ∧ (parts.length ≠ 2 → parts.length ≠ 3 →
        compareParts parts mn tc = Except.error EvalErr.unableToParse)
    ∧ (op ∉ opList →
        compareParts [f, op, lit] mn tc = Except.error EvalErr.unexpectedConditional)
    ∧ (findParen f = none →
        compareParts [f, op, lit] mn tc = compareParts ["count()", op, lit] mn tc) := by
  refine ⟨rfl, rfl, ?_, ?_, ?_⟩
  · intro h2 h3
    unfold compareParts
    rw [if_neg h2]
    rcases parts with _ | ⟨a, _ | ⟨b, _ | ⟨c, _ | ⟨d, t⟩⟩⟩⟩
    · rfl
    · rfl
    · simp at h2
    · simp at h3
    · rfl
  · intro hop
    have e1 : compareParts [f, op, lit] mn tc = comparePartsCore f op lit mn := rfl
    rw [e1]
    cases hf : findParen f with
    | some fp =>
      simp only [comparePartsCore, hf]
      exact evalOp_unknown op hop _ _
    | none =>
      obtain ⟨prop, hp⟩ := findParen_fallback f hf
      simp only [comparePartsCore, hf, hp]
      exact evalOp_unknown op hop _ _
  · intro hf
    obtain ⟨prop, hp⟩ := findParen_fallback f hf
    have e1 : compareParts [f, op, lit] mn tc = comparePartsCore f op lit mn := rfl
    have e2 : compareParts ["count()", op, lit] mn tc = comparePartsCore "count()" op lit mn := rfl
    have hc : findParen "count()" = some ("count", "") := rfl
    rw [e1, e2]
    simp only [comparePartsCore, hf, hp, hc]
    simp [evalFunction]

/-- Witness for C3 (amended): the shorthand `["<", "5"]` with three
matching nodes is `count() < 5`, hence true; a single-token conditional is
a parse error; a recognized-form conditional with operator `!=` is a
structured error. -/
theorem conditional_grammar_amended_witness :
    compareParts ["<", "5"] [nodeA, nodeA, nodeA] 3 = Except.ok true
    ∧ compareParts ["banana"] [] 0 = Except.error EvalErr.unableToParse
    ∧ compareParts ["count()", "!=", "3"] [] 0 = Except.error EvalErr.unexpectedConditional := by
  refine ⟨?_, ?_, ?_⟩
  · rw [(conditional_grammar_amended "x" "<" "5" [] [nodeA, nodeA, nodeA] 3).2.1]
    rfl
  · exact (conditional_grammar_amended "x" "<" "5" ["banana"] [] 0).2.2.1
      (by decide) (by decide)
  · exact (conditional_grammar_amended "count()" "!=" "3" [] [] 0).2.2.2.1 (by decide)

/-! ### C4: threshold clauses -/

/-- The accessor substitutes zero whenever the key is absent. -/
theorem qGet_of_isSome_false (o : Option Quantity) (h : o.isSome = false) : qGet o = 0 := by
  cases o with
  | none => rfl
  | some q => simp at h

/-- C4 counterexample: a node lacking the cpu-capacity property does NOT
fail a declared cpu-capacity clause with bound `"0"`: the accessor
substitutes the zero quantity, `0 ≥ 0` holds, and the node matches —
contradicting "a node lacking that property fails the clause and is
excluded from the matching set". -/
theorem threshold_clause_counterexample :
    bareNode.capacity.cpu = none ∧
      nodeMatchesFilters bareNode (some (singleClause ThresholdProp.cpuCapacity "0")) =
        Except.ok true :=
  ⟨rfl, by with_unfolding_all rfl⟩

/-- C4 (amended): a malformed quantity string in a declared threshold
clause yields a parse error when the clause is evaluated; with a
well-formed bound the node matches the clause iff its corresponding
quantity is not below the bound, so a node exactly at the bound matches;
and a node lacking the property is treated as reporting the zero quantity
(hence it is excluded precisely when the bound is positive, and still
matches a bound of zero), without raising an error. -/
theorem threshold_clause_amended (p : ThresholdProp) (s : String) (n : Node) (hs : s ≠ "") :
    (parseQuantity s = none →
      nodeMatchesFilters n (some (singleClause p s)) = Except.error FilterErr.badQuantity)
    ∧ (∀ b, parseQuantity s = some b →
        nodeMatchesFilters n (some (singleClause p s)) =
          Except.ok (decide (¬ qCmp (nodePropQ p n) b = -1)))
    ∧ (∀ b, parseQuantity s = some b → qCmp (nodePropQ p n) b = 0 →
        nodeMatchesFilters n (some (singleClause p s)) = Except.ok true)
    ∧ (nodeHasPropT p n = false → nodePropQ p n = 0) := by
  have key : ∀ b, parseQuantity s = some b →
      nodeMatchesFilters n (some (singleClause p s)) =
        Except.ok (decide (¬ qCmp (nodePropQ p n) b = -1)) := by
    intro b hb
    cases p <;>
      (simp [nodeMatchesFilters, singleClause, thresholdStep, nodePropQ, hs, hb]
       <;> split_ifs with h <;> simp [h])
  refine ⟨?_, key, ?_, ?_⟩
  · intro h
    cases p <;> simp [nodeMatchesFilters, singleClause, thresholdStep, hs, h]
  · intro b hb hc
    rw [key b hb, hc]
    rfl
  · intro hmiss
    cases p <;> simp only [nodeHasPropT] at hmiss <;> exact qGet_of_isSome_false _ hmiss

/-- Witness for C4 (amended): a node whose cpu allocatable is exactly the
declared bound `"2"` matches the clause. -/
theorem threshold_clause_amended_witness :
    "2" ≠ "" ∧
      nodeMatchesFilters nodeA (some (singleClause ThresholdProp.cpuAllocatable "2")) =
        Except.ok true := by
  have h := threshold_clause_amended ThresholdProp.cpuAllocatable "2" nodeA (by decide)
  exact ⟨by decide, h.2.2.1 2 (by with_unfolding_all rfl) (by with_unfolding_all rfl)⟩

/-! ### C5: label mismatch aborts the whole pass -/

theorem checkLabels_error_of_mismatch (labels ml : List (String × String))
    (h : ∃ kv ∈ ml, lookupLabel labels kv.1 ≠ some kv.2) :
    checkLabels labels ml = Except.error FilterErr.labelMismatch := by
  induction ml with
  | nil =>
    rcases h with ⟨kv, hkv, _⟩
    exact absurd hkv (List.not_mem_nil kv)
  | cons e rest ih =>
    rcases h with ⟨kv, hkv, hne⟩
    cases hl : lookupLabel labels e.1 with
    | none => simp [checkLabels, hl]
    | some l =>
      by_cases hle : l = e.2
      · have hkr : kv ∈ rest := by
          rcases List.mem_cons.mp hkv with rfl | hr
          · rw [hl, hle] at hne
            exact absurd rfl hne
          · exact hr
        simp only [checkLabels, hl, hle, if_pos]
        exact ih ⟨kv, hkr, hne⟩
      · simp [checkLabels, hl, hle]

theorem nodeMatchesFilters_error_of_label_mismatch (n : Node) (f : NodeResourceFilters)
    (sel : NodeResourceSelectors) (hsel : f.selector = some sel)
    (h : ∃ kv ∈ sel.matchLabel, lookupLabel n.labels kv.1 ≠ some kv.2) :
    nodeMatchesFilters n (some f) = Except.error FilterErr.labelMismatch := by
  have hc := checkLabels_error_of_mismatch n.labels sel.matchLabel h
  simp [nodeMatchesFilters, hsel, hc]

theorem filterNodes_error_of_mem (nodes : List Node) (f : Option NodeResourceFilters)
    (h : ∃ n ∈ nodes, ∃ e, nodeMatchesFilters n f = Except.error e) :
    ∃ e, filterNodes nodes f = Except.error e := by
  induction nodes with
  | nil =>
    rcases h with ⟨n, hn, _⟩
    exact absurd hn (List.not_mem_nil n)
  | cons m rest ih =>
    cases hm : nodeMatchesFilters m f with
    | error e => exact ⟨e, by simp [filterNodes, hm]⟩
    | ok b =>
      rcases h with ⟨n, hn, e, hne⟩
      have hnr : n ∈ rest := by
        rcases List.mem_cons.mp hn with rfl | hr
        · rw [hm] at hne
          cases hne
        · exact hr
      obtain ⟨e2, he2⟩ := ih ⟨n, hnr, e, hne⟩
      exact ⟨e2, by simp [filterNodes, hm, he2]⟩

/-- C5: when the active filter declares label clauses and any single node
in the list lacks a declared key or maps it to a different value, the
whole evaluation aborts with an error — no result (hence no matching set
and no outcome evaluation) is produced for any node. -/
theorem label_mismatch_aborts (a : NodeResourcesAnalyzer) (nodes : List Node)
    (deploymentNames : List String) (f : NodeResourceFilters) (sel : NodeResourceSelectors)
    (hdep : a.deployment = none) (hf : a.filters = some f) (hsel : f.selector = some sel)
    (hmm : ∃ n ∈ nodes, ∃ kv ∈ sel.matchLabel, lookupLabel n.labels kv.1 ≠ some kv.2) :
    ∃ e, analyzeNodeResources a nodes deploymentNames =
      Except.error (AnalyzeErr.filterErr e) := by
  have hfn : ∃ e, filterNodes nodes a.filters = Except.error e := by
    apply filterNodes_error_of_mem
    rcases hmm with ⟨n, hn, hkv⟩
    refine ⟨n, hn, FilterErr.labelMismatch, ?_⟩
    rw [hf]
    exact nodeMatchesFilters_error_of_label_mismatch n f sel hsel hkv
  obtain ⟨e, he⟩ := hfn
  exact ⟨e, by simp [analyzeNodeResources, hdep, analyzeFiltersOutcomes, he]⟩

/-- Witness for C5: a single node labelled `role=worker` against a filter
demanding `role=master` aborts the whole evaluation with an error. -/
theorem label_mismatch_aborts_witness :
    ∃ e, analyzeNodeResources
        { filters := some { selector := some { matchLabel := [("role", "master")] } } }
        [nodeA] [] = Except.error (AnalyzeErr.filterErr e) := by
  apply label_mismatch_aborts _ _ _
    { selector := some { matchLabel := [("role", "master")] } }
    { matchLabel := [("role", "master")] } rfl rfl rfl
  refine ⟨nodeA, by simp, ("role", "master"), by simp, ?_⟩
  simp [lookupLabel, nodeA]

/-! ### C6: deployment gating -/

/-- C6: with a deployment gate configured — if the deployment exists and
`onUpdate` is configured, its filters and outcomes replace the rule's (the
evaluation equals that of the gate-free rule with the substituted specs);
if it exists and `onUpdate` is not configured, the evaluation is skipped
with a Warn verdict and the fixed explanatory message (an `ok` result, not
an error, and not a Fail); if it does not exist and `onInstall` is
configured, that alternative is substituted; and if it does not exist and
`onInstall` is not configured, the rule's own filters and outcomes are
used unchanged. -/
theorem deployment_gate (a : NodeResourcesAnalyzer) (nodes : List Node)
    (deploymentNames : List String) (d : DeploymentRef) (hd : a.deployment = some d) :
    (∀ alt, checkDeployment deploymentNames d.name = true → a.onUpdate = some alt →
      analyzeNodeResources a nodes deploymentNames =
        analyzeNodeResources
          { a with deployment := none, filters := alt.filters, outcomes := alt.outcomes }
          nodes deploymentNames)
    ∧ (checkDeployment deploymentNames d.name = true → a.onUpdate = none →
        analyzeNodeResources a nodes deploymentNames =
          Except.ok
            { title := "Skipped: " ++ (if a.checkName = "" then "Node Resources" else a.checkName)
              iconKey := "kubernetes_node_resources"
              iconURI := nodeResourcesIconURI
              isWarn := true
              message := skipMessage d.name })
    ∧ (∀ alt, checkDeployment deploymentNames d.name = false → a.onInstall = some alt →
        analyzeNodeResources a nodes deploymentNames =
          analyzeNodeResources
            { a with deployment := none, filters := alt.filters, outcomes := alt.outcomes }
            nodes deploymentNames)
    ∧ (checkDeployment deploymentNames d.name = false → a.onInstall = none →
        analyzeNodeResources a nodes deploymentNames =
          analyzeNodeResources { a with deployment := none } nodes deploymentNames) := by
  refine ⟨?_, ?_, ?_, ?_⟩
  · intro alt hex hup
    simp [analyzeNodeResources, hd, hex, hup]
  · intro hex hup
    simp [analyzeNodeResources, hd, hex, hup]
  · intro alt hex hin
    simp [analyzeNodeResources, hd, hex, hin]
  · intro hex hin
    simp [analyzeNodeResources, hd, hex, hin]

/-- Witness for C6: deployment `dep` exists in the namespace data and no
`onUpdate` alternative is configured, so the result is the Warn skip. -/
theorem deployment_gate_witness :
    analyzeNodeResources
        { checkName := "Check", deployment := some { nspace := "ns", name := "dep" } }
        [] ["dep"] =
      Except.ok
        { title := "Skipped: Check"
          iconKey := "kubernetes_node_resources"
          iconURI := nodeResourcesIconURI
          isWarn := true
          message := skipMessage "dep" } := by
  have h := deployment_gate
    { checkName := "Check", deployment := some { nspace := "ns", name := "dep" } }
    [] ["dep"] { nspace := "ns", name := "dep" } rfl
  rw [h.2.1 (by decide) rfl]
  rfl

/-! ### C7: count and sum -/

/-- A node that does not report the property contributes either nothing
(unknown name) or the zero quantity (known name, absent key) to an
aggregate. -/
theorem getQuantity_of_missing (prop : String) (n : Node) (h : nodeHasProp prop n = false) :
    getQuantity n prop = none ∨ getQuantity n prop = some 0 := by
  unfold nodeHasProp at h
  split at h <;> simp_all [getQuantity, qGet, Option.isSome_iff_exists]

/-- C7: `count` returns the number of matching records whatever the
property name is (`0` on the empty set), and `sum` folds the property with
quantity addition starting from zero, so the empty sum is zero and a
record that lacks the property leaves the sum unchanged wherever it sits
in the list, without an error. -/
theorem aggregate_count_sum (prop : String) (n : Node) (xs ys mn : List Node)
    (hmiss : nodeHasProp prop n = false) :
    (evalFunction "count" prop mn = GoVal.vInt (mn.length : Int))
    ∧ (evalFunction "count" prop [] = GoVal.vInt 0)
    ∧ (findSum [] prop = 0)
    ∧ (findSum (xs ++ n :: ys) prop = findSum (xs ++ ys) prop) := by
  refine ⟨rfl, rfl, rfl, ?_⟩
  rcases getQuantity_of_missing prop n hmiss with h | h <;>
    simp [findSum, List.foldl_append, sumStep, h]

/-- Witness for C7: a node with no cpu-capacity entry dropped into the
middle of a list does not change the sum. -/
theorem aggregate_count_sum_witness :
    nodeHasProp "cpuCapacity" bareNode = false ∧
      findSum ([nodeA] ++ bareNode :: [nodeA]) "cpuCapacity" =
        findSum ([nodeA] ++ [nodeA]) "cpuCapacity" := by
  have h := aggregate_count_sum "cpuCapacity" bareNode [nodeA] [nodeA] [] (by rfl)
  exact ⟨by rfl, h.2.2.2⟩

/-! ### C8: min and max over records lacking the property -/

theorem getQuantity_none_of_unknown (prop : String) (n : Node)
    (h : isKnownProperty prop = false) : getQuantity n prop = none := by
  unfold isKnownProperty at h
  split at h <;>
    first
      | exact absurd h (by decide)
      | (unfold getQuantity; split <;> simp_all)

theorem getQuantity_some_of_known (prop : String) (n : Node)
    (h : isKnownProperty prop = true) : ∃ q, getQuantity n prop = some q := by
  unfold isKnownProperty at h
  split at h <;> simp_all [getQuantity]

theorem findMin_none_of_unknown (prop : String) (nodes : List Node)
    (h : isKnownProperty prop = false) : findMin nodes prop = none := by
  unfold findMin
  induction nodes with
  | nil => rfl
  | cons m rest ih =>
    simp only [List.foldl_cons, minStep, getQuantity_none_of_unknown prop m h]
    exact ih

theorem findMax_none_of_unknown (prop : String) (nodes : List Node)
    (h : isKnownProperty prop = false) : findMax nodes prop = none := by
  unfold findMax
  induction nodes with
  | nil => rfl
  | cons m rest ih =>
    simp only [List.foldl_cons, maxStep, getQuantity_none_of_unknown prop m h]
    exact ih

theorem foldl_minStep_isSome (prop : String) (l : List Node) (acc : Option Quantity)
    (h : acc.isSome = true) : (l.foldl (minStep prop) acc).isSome = true := by
  induction l generalizing acc with
  | nil => exact h
  | cons m rest ih =>
    apply ih
    cases hq : getQuantity m prop with
    | none => simpa [minStep, hq] using h
    | some q =>
      cases acc with
      | none => simp [minStep, hq]
      | some a =>
        simp only [minStep, hq]
        split_ifs <;> rfl

theorem foldl_maxStep_isSome (prop : String) (l : List Node) (acc : Option Quantity)
    (h : acc.isSome = true) : (l.foldl (maxStep prop) acc).isSome = true := by
  induction l generalizing acc with
  | nil => exact h
  | cons m rest ih =>
    apply ih
    cases hq : getQuantity m prop with
    | none => simpa [maxStep, hq] using h
    | some q =>
      cases acc with
      | none => simp [maxStep, hq]
      | some a =>
        simp only [maxStep, hq]
        split_ifs <;> rfl

/-- C8 counterexample: one record that does not report cpu capacity, yet
`min` produces a value (the zero quantity substituted by the accessor)
rather than "no value" — contradicting "min over a record set in which no
record has the named property yields no value". -/
theorem min_no_value_counterexample :
    nodeHasProp "cpuCapacity" bareNode = false ∧
      findMin [bareNode] "cpuCapacity" = some 0 :=
  ⟨rfl, rfl⟩

/-- C8 (amended): `min`/`max` yield no value over the empty record set and
for an unknown property name (for which every record behaves as if it
lacked the property); for a known property name, a record lacking it is
treated as reporting the zero quantity, so `min`/`max` over a non-empty
set always yield a value; and any comparison of the no-value result
against a literal surfaces a structured evaluation error rather than a
boolean verdict or a crash. -/
theorem min_max_no_value_amended (prop : String) (nodes : List Node) (op : String)
    (d : Int ⊕ String) (n : Node) (rest : List Node) (hop : op ∈ opList) :
    (findMin ([] : List Node) prop = none ∧ findMax ([] : List Node) prop = none)
    ∧ (isKnownProperty prop = false →
        findMin nodes prop = none ∧ findMax nodes prop = none)
    ∧ (evalOp op (GoVal.vQuantityPtr none) d = Except.error EvalErr.panicRecovered)
    ∧ (isKnownProperty prop = true →
        (findMin (n :: rest) prop).isSome = true
        ∧ (findMax (n :: rest) prop).isSome = true) := by
  refine ⟨⟨rfl, rfl⟩, ?_, ?_, ?_⟩
  · intro h
    exact ⟨findMin_none_of_unknown prop nodes h, findMax_none_of_unknown prop nodes h⟩
  · fin_cases hop <;> cases d <;> rfl
  · intro h
    obtain ⟨q, hq⟩ := getQuantity_some_of_known prop n h
    constructor
    · show (List.foldl (minStep prop) (minStep prop none n) rest).isSome = true
      apply foldl_minStep_isSome
      simp [minStep, hq]
    · show (List.foldl (maxStep prop) (maxStep prop none n) rest).isSome = true
      apply foldl_maxStep_isSome
      simp [maxStep, hq]

/-- Witness for C8 (amended): comparing the no-value `min` of an empty set
against the literal `4` under `>=` surfaces the structured error, while
`min` and `max` over a one-node set with a known property both yield a
value. -/
theorem min_max_no_value_amended_witness :
    ">=" ∈ opList ∧
      evalOp ">=" (GoVal.vQuantityPtr (findMin [] "cpuCapacity")) (Sum.inl 4) =
        Except.error EvalErr.panicRecovered ∧
      (findMin (nodeA :: []) "cpuCapacity").isSome = true ∧
      (findMax (nodeA :: []) "cpuCapacity").isSome = true := by
  have h := min_max_no_value_amended "cpuCapacity" [] ">=" (Sum.inl 4) nodeA []
    (by decide)
  have hmm := h.2.2.2 (by rfl)
  exact ⟨by decide, h.2.2.1, hmm.1, hmm.2⟩

/-! ### C9: no uncontrolled fault -/

/-- C9: a literal that fails the integer parse stays a string; comparing an
integer aggregate against such a string yields the structured
recovered-panic error (never silently false); and the comparator is total:
every conditional evaluates to either a boolean or a structured error
value. -/
theorem comparator_no_crash (op s : String) (i : Int) (hop : op ∈ opList)
    (hs : atoi s = none) :
    (resolveLiteral s = Sum.inr s)
    ∧ (evalOp op (GoVal.vInt i) (Sum.inr s) = Except.error EvalErr.panicRecovered)
    ∧ (∀ cond mn tc,
        (∃ b, compareNodeResourceConditionalToActual cond mn tc = Except.ok b)
        ∨ (∃ e, compareNodeResourceConditionalToActual cond mn tc = Except.error e)) := by
  refine ⟨?_, ?_, ?_⟩
  · simp [resolveLiteral, hs]
  · fin_cases hop <;> rfl
  · intro cond mn tc
    cases h : compareNodeResourceConditionalToActual cond mn tc with
    | ok b => exact Or.inl ⟨b, rfl⟩
    | error e => exact Or.inr ⟨e, rfl⟩

/-- Witness for C9: `count() == banana` — integer aggregate, non-numeric
literal — is a structured error. -/
theorem comparator_no_crash_witness :
    "==" ∈ opList ∧ atoi "banana" = none ∧
      evalOp "==" (GoVal.vInt 3) (Sum.inr "banana") =
        Except.error EvalErr.panicRecovered := by
  have h := comparator_no_crash "==" "banana" 3 (by decide) (by rfl)
  exact ⟨by decide, by rfl, h.2.1⟩

/-! ### C10: the preflight child-contents helper -/

namespace Preflight

theorem lookupKV_map_overwrite {V : Type} (m : List (String × V)) (k k2 : String) (v : V) :
    lookupKV (m.map (fun kv => if kv.1 = k then (k, v) else kv)) k2 =
      if k2 = k then (if m.any (fun kv => kv.1 = k) then some v else none)
      else lookupKV m k2 := by
  induction m with
  | nil => by_cases h : k2 = k <;> simp [lookupKV, h]
  | cons hd tl ih =>
    simp only [List.map_cons, List.any_cons]
    by_cases h2 : k2 = k
    · subst h2
      by_cases h1 : hd.1 = k2
      · simp [lookupKV, List.find?, h1]
      · simp only [if_neg h1, lookupKV, List.find?]
        have e1 : (decide (hd.1 = k2)) = false := by simp [h1]
        simp only [e1]
        have ih2 := ih
        simp only [lookupKV] at ih2
        rw [ih2]
        cases hany : (tl.any fun kv => decide (kv.1 = k2)) <;> simp [hany]
    · rw [if_neg h2]
      by_cases h1 : hd.1 = k
      · simp only [if_pos h1, lookupKV, List.find?]
        have e1 : (decide (k = k2)) = false := by
          simp only [decide_eq_false_iff_not]
          exact fun hc => h2 hc.symm
        simp only [e1]
        have e2 : (decide (hd.1 = k2)) = false := by
          simp only [decide_eq_false_iff_not]
          intro hc
          exact h2 ((h1 ▸ hc : k = k2)).symm
        simp only [e2]
        have ih2 := ih
        simp only [lookupKV] at ih2
        rw [ih2, if_neg h2]
      · simp only [if_neg h1, lookupKV, List.find?]
        cases e : (decide (hd.1 = k2)) with
        | true => simp
        | false =>
          simp only [e]
          have ih2 := ih
          simp only [lookupKV] at ih2
          rw [ih2, if_neg h2]

theorem lookupKV_insertKV {V : Type} (m : List (String × V)) (k : String) (v : V)
    (k2 : String) :
    lookupKV (insertKV m k v) k2 = if k2 = k then some v else lookupKV m k2 := by
  unfold insertKV
  cases hmem : m.any (fun kv => decide (kv.1 = k)) with
  | true =>
    rw [if_pos rfl]
    rw [lookupKV_map_overwrite, hmem]
    simp
  | false =>
    rw [if_neg (by simp)]
    induction m with
    | nil =>
      by_cases h : k2 = k
      · simp [lookupKV, h]
      · have h3 : ¬ k = k2 := fun hc => h hc.symm
        simp [lookupKV, h, h3]
    | cons hd tl ih =>
      simp only [List.any_cons, Bool.or_eq_false_iff] at hmem
      obtain ⟨hhd, htl⟩ := hmem
      simp only [List.cons_append, lookupKV, List.find?]
      cases hfind : (decide (hd.1 = k2)) with
      | true =>
        have h2 : ¬ k2 = k := by
          simp only [decide_eq_true_eq] at hfind
          simp only [decide_eq_false_iff_not] at hhd
          rw [← hfind]
          exact fun hc => hhd hc
        simp [h2]
      | false =>
        simp only [hfind]
        have ih2 := ih htl
        simp only [lookupKV] at ih2
        exact ih2

theorem lookupKV_insertMatching {V : Type} (m entries : List (String × V))
    (pred : String → Bool) (hnd : (entries.map Prod.fst).Nodup) (k : String) :
    lookupKV (insertMatching m entries pred) k =
      match entries.find? (fun kv => kv.1 = k) with
      | some kv => if pred k then some kv.2 else lookupKV m k
      | none => lookupKV m k := by
  induction entries generalizing m with
  | nil => simp [insertMatching, lookupKV]
  | cons e rest ih =>
    simp only [List.map_cons, List.nodup_cons] at hnd
    obtain ⟨hkey, hrest⟩ := hnd
    have step : insertMatching m (e :: rest) pred =
        insertMatching (if pred e.1 then insertKV m e.1 e.2 else m) rest pred := by
      simp [insertMatching]
    rw [step, ih _ hrest]
    by_cases he : e.1 = k
    · have hfind : (e :: rest).find? (fun kv => decide (kv.1 = k)) = some e := by
        simp [List.find?, he]
      have hrng : rest.find? (fun kv => decide (kv.1 = k)) = none := by
        rw [List.find?_eq_none]
        intro x hx
        simp only [decide_eq_true_eq]
        intro hxk
        apply hkey
        rw [← he] at hxk
        have hmem := List.mem_map_of_mem Prod.fst hx
        rw [hxk] at hmem
        exact hmem
      rw [hfind, hrng]
      by_cases hp : pred e.1
      · rw [if_pos hp, lookupKV_insertKV]
        rw [he] at hp
        simp [he, hp]
      · rw [if_neg hp]
        rw [he] at hp
        simp [hp]
    · have hfind : (e :: rest).find? (fun kv => decide (kv.1 = k)) =
          rest.find? (fun kv => decide (kv.1 = k)) := by
        simp [List.find?, he]
      rw [hfind]
      have hm : lookupKV (if pred e.1 then insertKV m e.1 e.2 else m) k = lookupKV m k := by
        by_cases hp : pred e.1
        · rw [if_pos hp, lookupKV_insertKV, if_neg (fun hc => he hc.symm)]
        · rw [if_neg hp]
      cases hfr : rest.find? (fun kv => decide (kv.1 = k)) with
      | none => exact hm
      | some kv =>
        by_cases hp : pred k
        · simp [hp]
        · simp [hp, hm]

/-- C10: `getChildCollectedFileContents` never consults the
`AllCollectedData` map (the locally built map is never nil, so the early
return is always taken and the two loops over `AllCollectedData` are
unreachable); it returns the empty map whenever `protected` is nil; and
for a protected map with unique keys it returns exactly the protected
entries whose key has the requested prefix or glob-matches it. -/
theorem getChild_never_reads_allCollectedData {V : Type}
    (pmap : Option (List (String × V))) (acd acd2 : List (String × V))
    (globMatch : String → String → Bool) (pfx : String) (prot : List (String × V))
    (hnd : (prot.map Prod.fst).Nodup) :
    (getChildCollectedFileContents pmap acd globMatch pfx =
      getChildCollectedFileContents pmap acd2 globMatch pfx)
    ∧ (getChildCollectedFileContents none acd globMatch pfx = ([] : List (String × V)))
    ∧ (∀ k, lookupKV (getChildCollectedFileContents (some prot) acd globMatch pfx) k =
        if (hasPfx k pfx || globMatch pfx k) = true then lookupKV prot k else none) := by
  refine ⟨rfl, rfl, ?_⟩
  intro k
  show lookupKV
      (insertMatching (insertMatching [] prot (fun k2 => hasPfx k2 pfx)) prot
        (fun k2 => globMatch pfx k2)) k = _
  rw [lookupKV_insertMatching _ _ _ hnd k, lookupKV_insertMatching _ _ _ hnd k]
  cases hf : prot.find? (fun kv => kv.1 = k) with
  | none => simp [lookupKV, hf]
  | some kv =>
    by_cases hg : globMatch pfx k <;> by_cases hp : hasPfx k pfx <;>
      simp [hg, hp, lookupKV, hf]

/-- Witness for C10: a two-entry protected map with unique keys, a prefix
that matches one entry and a glob that matches nothing. -/
theorem getChild_never_reads_allCollectedData_witness :
    (([("a/x", (1 : Nat)), ("b/y", 2)].map Prod.fst).Nodup)
    ∧ lookupKV
        (getChildCollectedFileContents (some [("a/x", (1 : Nat)), ("b/y", 2)]) []
          (fun _ _ => false) "a/") "a/x" = some 1 := by
  have h := getChild_never_reads_allCollectedData
    (some [("a/x", (1 : Nat)), ("b/y", 2)]) [] [] (fun _ _ => false) "a/"
    [("a/x", 1), ("b/y", 2)] (by decide)
  refine ⟨by decide, ?_⟩
  rw [h.2.2 "a/x"]
  rfl

end Preflight

end Troubleshoot
